import Mathlib

/-!
Verification development for the tool-augmented chat agent
(`agent.py`, `tools.py`): the sandboxed arithmetic calculator, the
web-search input validation, the message-merge rule, and the
chatbot/tools orchestration graph.

Modelling conventions:
* Python `int` is `ℤ`; Python `float` and the components of `complex`
  are idealised as exact rationals `ℚ` (the claims under study are about
  control flow, guards and error classification, never about the last
  ulp of an IEEE-754 result; every concrete number appearing in a
  theorem is exactly representable).
* A Python function that can raise is an `Except` value; a function
  that can return `None` returns an `Option`.
* Network-backed code (the three search methods, the language-model
  backend, tool execution) crosses an I/O boundary and is a parameter
  of the functions that call it.
-/

/-! ### Python numeric values (`int` / `float` / `complex`) -/

/-- A Python number as produced by the arithmetic evaluator:
an `int`, a `float` (idealised as an exact rational) or a `complex`
(idealised as an exact pair of rationals). -/
inductive PyVal where
  | int (n : ℤ)
  | float (q : ℚ)
  | complex (re im : ℚ)
  deriving DecidableEq, Repr

/-- Python `right == 0`: numeric equality with zero across the three types. -/
def PyVal.isZero : PyVal → Bool
  | .int n => n = 0
  | .float q => q = 0
  | .complex re im => re = 0 ∧ im = 0

/-- Numeric equality with 1 (used by the exact branch of complex `**`). -/
def PyVal.isOne : PyVal → Bool
  | .int n => n = 1
  | .float q => q = 1
  | .complex re im => re = 1 ∧ im = 0

/-- Python `isinstance(v, (int, float))`. -/
def PyVal.isIntFloat : PyVal → Bool
  | .int _ => true
  | .float _ => true
  | .complex _ _ => false

/-- Python type name of a value, as it appears in `TypeError` messages. -/
def PyVal.tyName : PyVal → String
  | .int _ => "int"
  | .float _ => "float"
  | .complex _ _ => "complex"

/-- The real value of an `int` or `float` (junk `0` on `complex`;
only used under an `isIntFloat` guard, mirroring the source). -/
def PyVal.toQ : PyVal → ℚ
  | .int n => (n : ℚ)
  | .float q => q
  | .complex _ _ => 0

/-- `abs(v)` for an `int` or `float` (junk `0` on `complex`; the source
only takes `abs` of values it has checked with `isinstance(·,(int,float))`). -/
def PyVal.vabs : PyVal → ℚ
  | .int n => |(n : ℚ)|
  | .float q => |q|
  | .complex _ _ => 0

/-- The value seen as a complex pair. -/
def PyVal.toC : PyVal → ℚ × ℚ
  | .int n => ((n : ℚ), 0)
  | .float q => (q, 0)
  | .complex re im => (re, im)

/-- Complex multiplication on rational pairs. -/
def cmul (p q : ℚ × ℚ) : ℚ × ℚ :=
  (p.1 * q.1 - p.2 * q.2, p.1 * q.2 + p.2 * q.1)

/-- Complex multiplicative inverse on rational pairs. -/
def cinv (p : ℚ × ℚ) : ℚ × ℚ :=
  let d := p.1 * p.1 + p.2 * p.2
  (p.1 / d, -p.2 / d)

/-- Complex natural power by iterated multiplication. -/
def cpowNat (p : ℚ × ℚ) : ℕ → ℚ × ℚ
  | 0 => (1, 0)
  | n + 1 => cmul p (cpowNat p n)

/-- Python binary promotion: `int∘int → int`, otherwise `float`, with
`complex` absorbing everything; the three arguments give the operation
on each carrier. -/
def lift2 (f : ℤ → ℤ → ℤ) (g : ℚ → ℚ → ℚ) (h : ℚ × ℚ → ℚ × ℚ → ℚ × ℚ)
    (a b : PyVal) : PyVal :=
  match a, b with
  | .int m, .int n => .int (f m n)
  | .complex x y, _ => let p := h (x, y) b.toC; .complex p.1 p.2
  | _, .complex x y => let p := h a.toC (x, y); .complex p.1 p.2
  | _, _ => .float (g a.toQ b.toQ)

/-- Python `left + right` on numbers. -/
def numAdd : PyVal → PyVal → PyVal :=
  lift2 (· + ·) (· + ·) (fun p q => (p.1 + q.1, p.2 + q.2))

/-- Python `left - right` on numbers. -/
def numSub : PyVal → PyVal → PyVal :=
  lift2 (· - ·) (· - ·) (fun p q => (p.1 - q.1, p.2 - q.2))

/-- Python `left * right` on numbers. -/
def numMul : PyVal → PyVal → PyVal :=
  lift2 (· * ·) (· * ·) cmul

/-- Python `left / right` (true division; `int / int` is a `float`).
Only called after the source's `right == 0` guard. -/
def numDiv (a b : PyVal) : PyVal :=
  match a, b with
  | .complex x y, _ => let p := cmul (x, y) (cinv b.toC); .complex p.1 p.2
  | _, .complex x y => let p := cmul a.toC (cinv (x, y)); .complex p.1 p.2
  | _, _ => .float (a.toQ / b.toQ)

/-- Python `-v`. -/
def numNeg : PyVal → PyVal
  | .int n => .int (-n)
  | .float q => .float (-q)
  | .complex re im => .complex (-re) (-im)

/-- Floor-based modulo on rationals, the mathematical value of Python's
`float %`. -/
def qmod (x y : ℚ) : ℚ := x - (⌊x / y⌋ : ℤ) * y

/-! ### The evaluator's exception and result types -/

/-- The exceptions `_safe_eval_math_ast` can raise:
`ZeroDivisionError`, `OverflowError`, and the `TypeError` that Python's
`%` raises on complex operands (caught by the calculator's generic
`except Exception` handler, whose message it carries). -/
inductive PyExc where
  | zeroDiv
  | overflow
  | typeErr (msg : String)
  deriving DecidableEq, Repr

/-- Result of evaluating one AST node: an exception, or `None`
(the "unsupported" marker), or a number. -/
abbrev EvalRes := Except PyExc (Option PyVal)

/-- Python `left % right` after the zero guard: `TypeError` on a complex
operand (complex numbers have no `%` in Python 3), exact floor-mod on
`int`s (`Int.fmod` is Python's floored remainder), floor-mod as a
`float` otherwise. -/
def numMod (a b : PyVal) : Except PyExc PyVal :=
  match a, b with
  | .complex _ _, _ =>
      .error (.typeErr ("unsupported operand type(s) for %: '" ++ a.tyName ++
        "' and '" ++ b.tyName ++ "'"))
  | _, .complex _ _ =>
      .error (.typeErr ("unsupported operand type(s) for %: '" ++ a.tyName ++
        "' and '" ++ b.tyName ++ "'"))
  | .int m, .int n => .ok (.int (Int.fmod m n))
  | _, _ => .ok (.float (qmod a.toQ b.toQ))

/-- Coerce a value to the `complex` type (Python's numeric tower, used
where complex `**` always yields a `complex`). -/
def PyVal.complexify : PyVal → PyVal
  | .int n => .complex (n : ℚ) 0
  | .float q => .complex q 0
  | .complex re im => .complex re im

/-- Python `a ** n` for an integer exponent `n`: exact in every carrier;
`0 ** n` with `n < 0` raises `ZeroDivisionError`; a negative exponent on
an `int` base yields a `float` (idealised as the exact rational). -/
def powIntExp (a : PyVal) (n : ℤ) : Except PyExc PyVal :=
  if 0 ≤ n then
    .ok (match a with
      | .int m => .int (m ^ n.toNat)
      | .float q => .float (q ^ n.toNat)
      | .complex re im => let p := cpowNat (re, im) n.toNat; .complex p.1 p.2)
  else if a.isZero then .error .zeroDiv
  else
    .ok (match a with
      | .int m => .float ((m : ℚ) ^ n)
      | .float q => .float (q ^ n)
      | .complex re im =>
          let p := cinv (cpowNat (re, im) (-n).toNat); .complex p.1 p.2)

/-- Stand-in for a `float ** float` result with a non-integral exponent:
the true value (`a ** q`, an IEEE-754 approximation of an irrational
real, or a complex number for a negative base) is not representable in
the exact-rational idealisation. No theorem in this file depends on the
value of this branch, only on the fact that it is a number and not an
error. Python's exceptional cases for a zero base are modelled exactly. -/
def powFrac (a : PyVal) (q : ℚ) : Except PyExc PyVal :=
  if a.isZero then
    if q < 0 then .error .zeroDiv else .ok (.float 0)
  else
    match a with
    | .complex _ _ => .ok (.complex 0 0)
    | .int m => if m < 0 then .ok (.complex 0 0) else .ok (.float 0)
    | .float x => if x < 0 then .ok (.complex 0 0) else .ok (.float 0)

/-- Python `a ** w` for a `complex` exponent `w = re + im·j`, following
CPython's `complex.__pow__`: a real integral exponent of magnitude at
most 100 is computed exactly by repeated multiplication (`c_powi`); a
zero base raises `ZeroDivisionError` unless the exponent is a
nonnegative real, in which case the result is `0`; a base equal to `1`
gives exactly `1+0j` (the polar formulas degenerate to exact IEEE
values); every remaining case is transcendental and gets the documented
stand-in `0+0j`, on which no theorem depends. -/
def powComplexExp (a : PyVal) (re im : ℚ) : Except PyExc PyVal :=
  if im = 0 ∧ re.den = 1 ∧ |re.num| ≤ 100 then
    (powIntExp a re.num).map PyVal.complexify
  else if a.isZero then
    if im ≠ 0 ∨ re < 0 then .error .zeroDiv else .ok (.complex 0 0)
  else if a.isOne then .ok (.complex 1 0)
  else .ok (.complex 0 0)

/-- Python `left ** right`, dispatching on the exponent's type. The
magnitude guard of the source is applied by the caller, before this
function, exactly as in the source. -/
def powV (a b : PyVal) : Except PyExc PyVal :=
  match b with
  | .int n => powIntExp a n
  | .float q => if q.den = 1 then powIntExp a q.num else powFrac a q
  | .complex re im => powComplexExp a re im

/-! ### The abstract syntax accepted by `ast.parse(…, mode="eval")`,
restricted to the fragment this development models. -/

/-- A literal held by an `ast.Constant` node: a number, or a non-numeric
constant (string), which the evaluator rejects. -/
inductive PyConst where
  | num (v : PyVal)
  | str (s : String)
  deriving DecidableEq, Repr

/-- Binary operator nodes. `bitXor` is Python's `^`; the source's
evaluator has no case for it, so it falls into the `return None` branch. -/
inductive BOp where
  | add | sub | mult | div | pow | mod | bitXor
  deriving DecidableEq, Repr

/-- Unary operator nodes; `invert` (`~`) is outside the source's
allow-list and falls into its `return None` branch. -/
inductive UOp where
  | uadd | usub | invert
  deriving DecidableEq, Repr

/-- Expression AST: `ast.Constant`, `ast.BinOp`, `ast.UnaryOp`,
`ast.Name`; every other node kind of the full Python grammar behaves
like `name` under the evaluator (the final `else: return None`), so a
single representative constructor suffices. (`ast.Num` is a deprecated
alias of `ast.Constant` and is not distinguished.) -/
inductive PyExpr where
  | const (c : PyConst)
  | binOp (op : BOp) (l r : PyExpr)
  | unaryOp (op : UOp) (e : PyExpr)
  | name (s : String)
  deriving DecidableEq, Repr

/-- One `BinOp` dispatch of `_safe_eval_math_ast`, given both operand
values (the operand numeric-type `isinstance` re-check of the source is
vacuous here: evaluation only ever produces numbers):
division and modulo first check `right == 0` and raise
`ZeroDivisionError`; `**` first checks
`isinstance(right, (int, float)) and abs(right) > 1000` and raises
`OverflowError`; an operator outside the allow-list returns `None`. -/
def applyBin (op : BOp) (a b : PyVal) : EvalRes :=
  match op with
  | .add => .ok (some (numAdd a b))
  | .sub => .ok (some (numSub a b))
  | .mult => .ok (some (numMul a b))
  | .div => if b.isZero then .error .zeroDiv else .ok (some (numDiv a b))
  | .pow =>
      if b.isIntFloat ∧ 1000 < b.vabs then .error .overflow
      else (powV a b).map some
  | .mod => if b.isZero then .error .zeroDiv else (numMod a b).map some
  | .bitXor => .ok none

/-- `_safe_eval_math_ast` (agent.py): numeric constants evaluate to
themselves, non-numeric constants to `None`; for a `BinOp` both operands
are evaluated (left first, so a left exception propagates before the
right operand runs), `None`-ness of either operand is checked after
both, then the operator is dispatched; `UnaryOp` supports `+`/`-`;
every other node kind returns `None`. -/
def safe_eval_math_ast : PyExpr → EvalRes
  | .const (.num v) => .ok (some v)
  | .const (.str _) => .ok none
  | .binOp op l r => do
      let lv ← safe_eval_math_ast l
      let rv ← safe_eval_math_ast r
      match lv, rv with
      | some a, some b => applyBin op a b
      | _, _ => .ok none
  | .unaryOp op e => do
      let v ← safe_eval_math_ast e
      match v with
      | some a =>
          match op with
          | .uadd => .ok (some a)
          | .usub => .ok (some (numNeg a))
          | .invert => .ok none
      | none => .ok none
  | .name _ => .ok none

/-! ### Concrete syntax: `ast.parse(expression, mode="eval")` on the
numeric-expression fragment.

The lexer/parser below model Python's expression grammar on the
fragment the claims quantify over: decimal integer, float and imaginary
literals (with optional exponent), identifiers, `+ - * / % ** ^`,
parentheses, unary sign, and whitespace. Exotic literal forms (hex,
octal, binary, underscore separators), strings, calls and every other
construct are outside the modelled fragment and are reported as syntax
errors; no theorem depends on such inputs. Syntax-error message *texts*
are not modelled (no claim inspects them). Precedence and associativity
follow Python: `^` < `+ -` < `* / %` < unary sign < `**`, with `**`
right-associative and binding its right operand through unary sign. -/

/-- Tokens of the modelled fragment. -/
inductive Tok where
  | num (v : PyVal)
  | ident (s : String)
  | plus | minus | star | dstar | slash | percent | caret | lparen | rparen
  deriving DecidableEq, Repr

/-- Value of a string of decimal digits. -/
def digitsToNat (ds : List Char) : ℕ :=
  ds.foldl (fun a c => 10 * a + (c.toNat - '0'.toNat)) 0

/-- Lex one numeric literal (integer part, optional fraction, optional
exponent, optional imaginary suffix `j`/`J`), returning the token and
the remaining input. -/
def lexNum (cs : List Char) : Except String (Tok × List Char) :=
  let (d1, r1) := cs.span Char.isDigit
  let fracPart : List Char × Bool × List Char :=
    match r1 with
    | '.' :: rest => let (d2, r3) := rest.span Char.isDigit; (d2, true, r3)
    | _ => ([], false, r1)
  let frac := fracPart.1
  let sawDot := fracPart.2.1
  let r2 := fracPart.2.2
  if d1.isEmpty && frac.isEmpty then .error "invalid decimal literal" else
  let base : ℚ := (digitsToNat d1 : ℚ) + (digitsToNat frac : ℚ) / (10 : ℚ) ^ frac.length
  let expPart : Except String (Option ℤ × List Char) :=
    match r2 with
    | 'e' :: rest | 'E' :: rest =>
        let sgnRest : ℤ × List Char :=
          match rest with
          | '+' :: r => (1, r)
          | '-' :: r => (-1, r)
          | r => (1, r)
        let (d3, r4) := sgnRest.2.span Char.isDigit
        if d3.isEmpty then .error "invalid decimal literal"
        else .ok (some (sgnRest.1 * (digitsToNat d3 : ℤ)), r4)
    | _ => .ok (none, r2)
  match expPart with
  | .error e => .error e
  | .ok (expOpt, r4) =>
      let q : ℚ := match expOpt with | some k => base * (10 : ℚ) ^ k | none => base
      match r4 with
      | 'j' :: r5 => .ok (.num (.complex 0 q), r5)
      | 'J' :: r5 => .ok (.num (.complex 0 q), r5)
      | _ =>
          if sawDot || expOpt.isSome then .ok (.num (.float q), r4)
          else .ok (.num (.int (digitsToNat d1 : ℤ)), r4)

/-- Tokenise the whole input. Fuel-driven; each step consumes at least
one character, so `length + 1` fuel always suffices. -/
def lexAll : ℕ → List Char → Except String (List Tok)
  | 0, _ => .error "out of fuel"
  | _ + 1, [] => .ok []
  | f + 1, c :: cs =>
    if c = ' ' ∨ c = '\t' then lexAll f cs
    else if c = '(' then (lexAll f cs).map (Tok.lparen :: ·)
    else if c = ')' then (lexAll f cs).map (Tok.rparen :: ·)
    else if c = '+' then (lexAll f cs).map (Tok.plus :: ·)
    else if c = '-' then (lexAll f cs).map (Tok.minus :: ·)
    else if c = '/' then (lexAll f cs).map (Tok.slash :: ·)
    else if c = '%' then (lexAll f cs).map (Tok.percent :: ·)
    else if c = '^' then (lexAll f cs).map (Tok.caret :: ·)
    else if c = '*' then
      match cs with
      | '*' :: cs2 => (lexAll f cs2).map (Tok.dstar :: ·)
      | _ => (lexAll f cs).map (Tok.star :: ·)
    else if c.isDigit ∨ (c = '.' ∧ (cs.head?.map Char.isDigit).getD false) then
      match lexNum (c :: cs) with
      | .error e => .error e
      | .ok (t, rest) => (lexAll f rest).map (t :: ·)
    else if c.isAlpha ∨ c = '_' then
      let p := (c :: cs).span (fun ch => ch.isAlphanum ∨ ch = '_')
      (lexAll f p.2).map (Tok.ident ⟨p.1⟩ :: ·)
    else .error "unexpected character"

mutual

/-- `^`-level (lowest precedence in the fragment), left-associative. -/
def parseXor : ℕ → List Tok → Except String (PyExpr × List Tok)
  | 0, _ => .error "out of fuel"
  | f + 1, ts => do
      let (e, r) ← parseArith f ts
      parseXorRest f e r

/-- Left-associative continuation for `^`. -/
def parseXorRest : ℕ → PyExpr → List Tok → Except String (PyExpr × List Tok)
  | 0, _, _ => .error "out of fuel"
  | f + 1, acc, .caret :: r => do
      let (e, r2) ← parseArith f r
      parseXorRest f (.binOp .bitXor acc e) r2
  | _ + 1, acc, ts => .ok (acc, ts)

/-- `+`/`-` level, left-associative. -/
def parseArith : ℕ → List Tok → Except String (PyExpr × List Tok)
  | 0, _ => .error "out of fuel"
  | f + 1, ts => do
      let (e, r) ← parseTerm f ts
      parseArithRest f e r

/-- Left-associative continuation for `+`/`-`. -/
def parseArithRest : ℕ → PyExpr → List Tok → Except String (PyExpr × List Tok)
  | 0, _, _ => .error "out of fuel"
  | f + 1, acc, .plus :: r => do
      let (e, r2) ← parseTerm f r
      parseArithRest f (.binOp .add acc e) r2
  | f + 1, acc, .minus :: r => do
      let (e, r2) ← parseTerm f r
      parseArithRest f (.binOp .sub acc e) r2
  | _ + 1, acc, ts => .ok (acc, ts)

/-- `*`/`/`/`%` level, left-associative. -/
def parseTerm : ℕ → List Tok → Except String (PyExpr × List Tok)
  | 0, _ => .error "out of fuel"
  | f + 1, ts => do
      let (e, r) ← parseFactor f ts
      parseTermRest f e r

/-- Left-associative continuation for `*`/`/`/`%`. -/
def parseTermRest : ℕ → PyExpr → List Tok → Except String (PyExpr × List Tok)
  | 0, _, _ => .error "out of fuel"
  | f + 1, acc, .star :: r => do
      let (e, r2) ← parseFactor f r
      parseTermRest f (.binOp .mult acc e) r2
  | f + 1, acc, .slash :: r => do
      let (e, r2) ← parseFactor f r
      parseTermRest f (.binOp .div acc e) r2
  | f + 1, acc, .percent :: r => do
      let (e, r2) ← parseFactor f r
      parseTermRest f (.binOp .mod acc e) r2
  | _ + 1, acc, ts => .ok (acc, ts)

/-- Unary sign level (Python `factor`). -/
def parseFactor : ℕ → List Tok → Except String (PyExpr × List Tok)
  | 0, _ => .error "out of fuel"
  | f + 1, .plus :: r => do
      let (e, r2) ← parseFactor f r
      .ok (.unaryOp .uadd e, r2)
  | f + 1, .minus :: r => do
      let (e, r2) ← parseFactor f r
      .ok (.unaryOp .usub e, r2)
  | f + 1, ts => parsePower f ts

/-- `**` level (Python `power`): right-associative, right operand parsed
at the unary-sign level, as in Python's grammar. -/
def parsePower : ℕ → List Tok → Except String (PyExpr × List Tok)
  | 0, _ => .error "out of fuel"
  | f + 1, ts => do
      let (b, r) ← parseAtom f ts
      match r with
      | .dstar :: r2 => do
          let (e2, r3) ← parseFactor f r2
          .ok (.binOp .pow b e2, r3)
      | _ => .ok (b, r)

/-- Atoms: literals, identifiers, parenthesised expressions. -/
def parseAtom : ℕ → List Tok → Except String (PyExpr × List Tok)
  | 0, _ => .error "out of fuel"
  | _ + 1, .num v :: r => .ok (.const (.num v), r)
  | _ + 1, .ident s :: r => .ok (.name s, r)
  | f + 1, .lparen :: r => do
      let (e, r2) ← parseXor f r
      match r2 with
      | .rparen :: r3 => .ok (e, r3)
      | _ => .error "expected closing parenthesis"
  | _ + 1, _ => .error "invalid syntax"

end

/-- `ast.parse(s, mode="eval")` on the modelled fragment: tokenise,
parse one expression, require the input to be exhausted. -/
def parse (s : String) : Except String PyExpr := do
  let toks ← lexAll (s.length + 1) s.data
  let (e, rest) ← parseXor (8 * (toks.length + 1)) toks
  match rest with
  | [] => .ok e
  | _ => .error "invalid syntax"

/-! ### String helpers used by the calculator and the search tool -/

/-- The whitespace set of Python's `str.strip()` (ASCII part). -/
def pyWs (c : Char) : Bool :=
  c = ' ' ∨ c = '\t' ∨ c = '\n' ∨ c = '\r' ∨ c = '\x0b' ∨ c = '\x0c'

/-- Python `s.strip()`. -/
def pyStrip (s : String) : String :=
  ⟨((s.data.dropWhile pyWs).reverse.dropWhile pyWs).reverse⟩

/-- Python `s.lower()` (ASCII case mapping, all that the inputs at issue
contain). -/
def pyLower (s : String) : String :=
  ⟨s.data.map Char.toLower⟩

/-- Python `pat in hay`: substring containment. -/
def pyContains (hay pat : String) : Bool :=
  (List.range (hay.data.length + 1)).any fun i => pat.data.isPrefixOf (hay.data.drop i)

/-- The calculator's substring block-list (agent.py line 56). -/
def dangerous_patterns : List String :=
  ["import", "exec", "eval", "__", "open", "file", "input", "raw_input"]

/-- `any(pattern in expression.lower() for pattern in dangerous_patterns)`. -/
def blockAny (s : String) : Bool :=
  dangerous_patterns.any fun p => pyContains (pyLower s) p

/-! ### Result formatting (agent.py lines 75–88) -/

/-- Stand-in for Python's `str(float)`: exact only in what it is used
for in this development — no theorem inspects a non-integral rendering,
and Python's shortest-round-trip notation (`1e+20`, `0.1`, …) is not
reproduced. -/
def floatRepr (q : ℚ) : String :=
  if q.den = 1 then toString q.num ++ ".0" else toString q.num ++ "/" ++ toString q.den

/-- Python `round(x, 10)` (half-even rounding to ten decimal places;
the tie-breaking direction is irrelevant to every theorem below). -/
def round10 (q : ℚ) : ℚ := (⌊q * 10 ^ 10 + 1 / 2⌋ : ℤ) / 10 ^ 10

/-- One component of Python's `str(complex)`: integral values print
without a fractional part. -/
def fmtComp (q : ℚ) : String :=
  if q.den = 1 then toString q.num else floatRepr q

/-- Python `str(complex)`: pure-imaginary values print as `imj`, others
as `(re±imj)`. -/
def complexRepr (re im : ℚ) : String :=
  if re = 0 then fmtComp im ++ "j"
  else "(" ++ fmtComp re ++ (if im < 0 then "-" ++ fmtComp (-im) else "+" ++ fmtComp im) ++ "j)"

/-- `str(result)` / the float display logic of the calculator's success
path: an integer-valued float prints via `str(int(result))`, any other
float is rounded to ten decimals first; `int` and `complex` print via
`str`. -/
def formatNum : PyVal → String
  | .int n => toString n
  | .float q => if q.den = 1 then toString q.num else floatRepr (round10 q)
  | .complex re im => complexRepr re im

/-! ### The calculator tool (agent.py `calculator`) -/

/-- Structured outcome of one calculator run, in source order: empty
input, block-list hit, syntax error, evaluator `None`
("unsupported"), `ZeroDivisionError`, `OverflowError`, any other
exception (its message), float magnitude violations, or a value to
format. Separating the outcome from its rendering lets theorems speak
about classification; `renderCalc` below maps each outcome to the exact
f-string of the source. -/
inductive CalcOut where
  | empty
  | blocked
  | badParse (msg : String)
  | unsupported
  | divZero
  | overflowExc
  | failed (msg : String)
  | tooLarge (q : ℚ)
  | tooSmall (q : ℚ)
  | num (v : PyVal)
  deriving DecidableEq, Repr

/-- The calculator's control flow on a (string) input: strip; reject
empty input; reject a block-list match; parse; evaluate; map exceptions
and `None`; range-check a `float` result (`abs > 1e15` → too large,
`0 ≠ abs < 1e-15` → too small — the bounds are exactly representable
doubles up to the documented `1e-15` idealisation); otherwise keep the
value. Only a `float` result is range-checked, exactly as in the
source's `isinstance(result, float)` branch. -/
def calcOutcome (s0 : String) : CalcOut :=
  let s := pyStrip s0
  if s = "" then .empty
  else if blockAny s then .blocked
  else match parse s with
  | .error m => .badParse m
  | .ok t =>
      match safe_eval_math_ast t with
      | .error .zeroDiv => .divZero
      | .error .overflow => .overflowExc
      | .error (.typeErr m) => .failed m
      | .ok none => .unsupported
      | .ok (some v) =>
          match v with
          | .float q =>
              if 10 ^ 15 < |q| then .tooLarge q
              else if |q| < 1 / 10 ^ 15 ∧ q ≠ 0 then .tooSmall q
              else .num v
          | _ => .num v

/-- The exact result/error strings of the source's `calculator`
(`expression` is the stripped input interpolated into its f-strings). -/
def renderCalc (s : String) : CalcOut → String
  | .empty => "Error: Empty expression provided"
  | .blocked => "Error: Expression contains potentially unsafe operations: " ++ s
  | .badParse m => "Error: Invalid mathematical syntax in '" ++ s ++ "': " ++ m
  | .unsupported => "Error: Unsupported operation or invalid expression: " ++ s
  | .divZero => "Error: Division by zero in expression: " ++ s
  | .overflowExc => "Error: Number too large to compute in expression: " ++ s
  | .failed m => "Error: Failed to calculate '" ++ s ++ "': " ++ m
  | .tooLarge q => "Error: Result too large: " ++ floatRepr q
  | .tooSmall q => "Error: Result too small: " ++ floatRepr q
  | .num v => formatNum v

/-- The `calculator` tool (agent.py lines 32–97). The `isinstance(expression,
str)` check is vacuous here (the argument is typed). -/
def calculator (expression : String) : String :=
  renderCalc (pyStrip expression) (calcOutcome expression)

/-! ### The web-search tool (agent.py `web_search`) -/

/-- `_generate_fallback_response` (agent.py lines 388–418): keyword
pattern matching over the lowered query, producing canned guidance. -/
def generate_fallback_response (query : String) : String :=
  let ql := pyLower query
  if ["weather", "temperature", "climate", "forecast"].any (pyContains ql) then
    "Search results for '" ++ query ++ "':\n\nFor current weather information, I recommend checking:\n• Weather.com or AccuWeather for detailed forecasts\n• Local meteorological services for your region\n• Weather apps on your device for real-time updates\n\nPlease specify a location for more accurate weather information."
  else if ["news", "current events", "breaking", "today"].any (pyContains ql) then
    "Search results for '" ++ query ++ "':\n\nFor current news and events, I recommend checking:\n• BBC News, Reuters, or Associated Press for international news\n• Local news outlets for regional updates\n• Reputable news aggregators like Google News\n\nNews changes rapidly, so please check multiple sources for the most current information."
  else if ["stock", "market", "price", "trading", "finance"].any (pyContains ql) then
    "Search results for '" ++ query ++ "':\n\nFor financial and market information, I recommend:\n• Yahoo Finance or Bloomberg for stock prices and market data\n• Your broker's platform for real-time trading information\n• Financial news sources like CNBC or MarketWatch\n\nFinancial data changes constantly throughout trading hours."
  else if ["recipe", "cooking", "food", "ingredients"].any (pyContains ql) then
    "Search results for '" ++ query ++ "':\n\nFor recipes and cooking information, try:\n• AllRecipes or Food Network for tested recipes\n• YouTube cooking channels for video tutorials\n• Cooking blogs and food websites\n\nConsider dietary restrictions and ingredient availability in your area."
  else if ["health", "medical", "symptoms", "treatment"].any (pyContains ql) then
    "Search results for '" ++ query ++ "':\n\nFor health information, I recommend:\n• Consulting with healthcare professionals for medical advice\n• Reputable medical websites like Mayo Clinic or WebMD for general information\n• Your doctor or local health services for specific concerns\n\n**Important**: Always consult healthcare professionals for medical advice."
  else
    "Search results for '" ++ query ++ "':\n\nI wasn't able to fetch current web results for your query, but here are some suggestions:\n\n• Try searching on Google, Bing, or DuckDuckGo directly\n• Check Wikipedia for encyclopedic information\n• Look for authoritative sources and recent publications on this topic\n• Consider refining your search terms for more specific results\n\nFor the most current and detailed information about '" ++ query ++ "', I recommend using dedicated search engines or consulting subject matter experts."

/-- The `web_search` tool (agent.py lines 191–255). The three search
methods (`_search_duckduckgo_instant`, `_search_wikipedia`,
`_search_web_scraping`) are network-backed and cross the I/O boundary;
they are parameters `m1 m2 m3`, where `none` covers "no result", "falsy
result" and "raised, swallowed by the per-method `except`" alike.
Validation happens before any method is consulted: non-string input is
impossible here (typed), then strip, empty check, and the 200-character
length cap. -/
def web_search (m1 m2 m3 : String → Option String) (query : String) : String :=
  let q := pyStrip query
  if q = "" then "Error: Empty search query provided"
  else if 200 < q.length then "Error: Search query too long (maximum 200 characters)"
  else match m1 q with
  | some r => r
  | none =>
      match m2 q with
      | some r => r
      | none =>
          match m3 q with
          | some r => r
          | none => generate_fallback_response q

/-! ### Messages, the merge rule, and the orchestration graph -/

/-- A capability call requested by an assistant message (spec §3
`CapabilityCall`; langchain `tool_call`): id, capability name, ordered
arguments. -/
structure CapCall where
  id : String
  name : String
  args : List (String × String)
  deriving DecidableEq, Repr

/-- Message roles (spec §3). -/
inductive Role where
  | user | assistant | tool
  deriving DecidableEq, Repr

/-- A conversation message (spec §3 `Message`): id, role, textual
content, requested capability calls, and — on tool messages — the id of
the call this message answers. -/
structure Message where
  id : String
  role : Role
  content : String
  calls : List CapCall
  resultFor : Option String
  deriving DecidableEq, Repr

/-- Whether some message of the conversation carries the given id. -/
def hasId (C : List Message) (a : String) : Bool :=
  C.any fun x => x.id == a

/-- Modelled from the spec: the merge rule of `MessageStore.append`
(spec §4.1), which in the source is langgraph's `add_messages` reducer
(the `Annotated[list, add_messages]` in agent.py's `State`), library
code not present under `src/`. One incoming message: if its id matches
an existing message's id, the existing entry is replaced in place (no
reordering); otherwise it is appended at the end. -/
def upsert (C : List Message) (m : Message) : List Message :=
  if hasId C m.id then
    C.map (fun x => if x.id == m.id then m else x)
  else C ++ [m]

/-- Modelled from the spec: `MessageStore.append` (spec §4.1) /
langgraph's `add_messages`: incoming messages are merged one at a time,
each by `upsert`. (The spec's `ValidationError` on orphaned tool
results concerns referential integrity, not the merge rule the claims
address, and is not modelled.) -/
def add_messages (C M : List Message) : List Message :=
  M.foldl upsert C

/-- Nodes of the compiled graph (agent.py lines 451–467): `"chatbot"`,
`"tools"`, and langgraph's `END` (the spec's `DONE`). The graph has no
other node — in particular no `FAILED` state. -/
inductive GNode where
  | chatbot | tools | stop
  deriving DecidableEq, Repr

/-- Orchestration state: the message list (the graph's `State`), the
current node, and a ghost counter of model invocations (number of times
the `chatbot` node has run), used only to observe the loop. -/
structure AgentState where
  messages : List Message
  node : GNode
  invocations : ℕ
  deriving DecidableEq, Repr

/-- The backend (`llm_with_tools.invoke`): from the current messages to
one assistant message, or an exception (`Except.error` with the
exception text). External collaborator, passed as a parameter. -/
abbrev Backend := List Message → Except String Message

/-- The fallback assistant message the `chatbot` node synthesizes when
the backend raises (agent.py lines 443–448): apologetic content
carrying the exception text, no tool calls. -/
def fallbackMessage (e : String) : Message :=
  { id := "error-fallback"
    role := .assistant
    content := "I apologize, but I'm experiencing technical difficulties. Error: " ++ e
    calls := []
    resultFor := none }

/-- The tool-result messages `ToolNode([calculator, web_search])`
produces for the most recent assistant message's calls, in request
order; `exec` is the dispatch to the tool implementations (network- and
model-free execution details are irrelevant to the orchestration
claims). -/
def toolMessages (ms : List Message) (exec : CapCall → String) : List Message :=
  let calls : List CapCall :=
    match ms.getLast? with
    | some m => m.calls
    | none => []
  calls.map fun c =>
    { id := "tool-" ++ c.id
      role := .tool
      content := exec c
      calls := []
      resultFor := some c.id }

/-- One step of the compiled graph (agent.py lines 451–467):
`chatbot` invokes the backend — on success the response is merged and
`tools_condition` routes to `"tools"` iff it requests calls, to `END`
otherwise; on an exception the fallback message is merged and, having
no calls, routes to `END`. `tools` executes the last message's calls,
merges the results, and returns to `chatbot` (the unconditional
`tools → chatbot` edge). `END` is terminal. -/
def step (backend : Backend) (exec : CapCall → String) (s : AgentState) : AgentState :=
  match s.node with
  | .chatbot =>
      match backend s.messages with
      | .ok m =>
          { messages := add_messages s.messages [m]
            node := if m.calls.isEmpty then .stop else .tools
            invocations := s.invocations + 1 }
      | .error e =>
          { messages := add_messages s.messages [fallbackMessage e]
            node := .stop
            invocations := s.invocations + 1 }
  | .tools =>
      { messages := add_messages s.messages (toolMessages s.messages exec)
        node := .chatbot
        invocations := s.invocations }
  | .stop => s

/-- A backend that never stops requesting capability calls: every
response asks for one more `calculator` call. -/
def alwaysCallBackend : Backend := fun ms =>
  .ok { id := "a" ++ toString ms.length
        role := .assistant
        content := ""
        calls := [{ id := "c" ++ toString ms.length
                    name := "calculator"
                    args := [("expression", "1 + 1")] }]
        resultFor := none }

/-- Initial state: one user message, at the graph's entry node. -/
def initState : AgentState :=
  { messages := [{ id := "u1", role := .user, content := "hi"
                   calls := [], resultFor := none }]
    node := .chatbot
    invocations := 0 }

/-! ### Predicates used to state the claims -/

/-- The characters a pure-arithmetic input (with `**` spelling the
power operator) can contain: decimal digits, the operator characters,
parentheses, sign, whitespace, the decimal point, the exponent marker
and the imaginary suffix. -/
def arithChars : List Char :=
  ['0', '1', '2', '3', '4', '5', '6', '7', '8', '9',
   '+', '-', '*', '/', '%', '(', ')', ' ', '\t', '.', 'e', 'j']

/-- Membership in `arithChars`. -/
def arithChar (c : Char) : Bool := arithChars.contains c

/-- Every character of the string is in `arithChars`. -/
def arithStr (s : String) : Bool := s.data.all arithChar

/-- The claim's original alphabet, which also admits the caret. -/
def claimChar (c : Char) : Bool := arithChar c || c == '^'

/-- Every character of the string is in the claim's original alphabet. -/
def claimStr (s : String) : Bool := s.data.all claimChar

/-- A parsed tree built only from numeric literals, the six supported
binary operators (`bitXor`, Python's `^`, is excluded) and unary sign:
the tree-shaped reading of "built only from numeric literals,
`+ - * / %`, `**`, parentheses, and unary sign". -/
def PureArith : PyExpr → Bool
  | .const (.num _) => true
  | .const (.str _) => false
  | .binOp op l r => op != .bitXor && PureArith l && PureArith r
  | .unaryOp op e => (op == .uadd || op == .usub) && PureArith e
  | .name _ => false

/-- The last message of `M` whose id is `a` (the entry an upsert-fold
leaves in place for that id); proof infrastructure for the merge rule. -/
def lastWith (M : List Message) (a : String) : Option Message :=
  M.foldl (fun acc m => if m.id == a then some m else acc) none

/-! ## Theorems

Shared infrastructure lemmas come first; each claim then gets exactly
one theorem (plus, where required, a witness or counterexample). -/

/-! ### Merge-rule infrastructure (spec §4.1 / `add_messages`) -/

lemma rep_id (m x : Message) : (if x.id == m.id then m else x).id = x.id := by
  cases h : x.id == m.id with
  | true => simp only [if_pos]; exact (beq_iff_eq.mp h).symm
  | false => simp [h]

lemma hasId_of_mem {C : List Message} {x : Message} (hx : x ∈ C) : hasId C x.id = true :=
  List.any_eq_true.mpr ⟨x, hx, beq_iff_eq.mpr rfl⟩

lemma hasId_map_rep (C : List Message) (m : Message) (a : String) :
    hasId (C.map fun x => if x.id == m.id then m else x) a = hasId C a := by
  unfold hasId
  rw [List.any_map]
  refine congrArg _ ?_
  funext x
  simp only [Function.comp]
  rw [rep_id]

lemma hasId_upsert {C : List Message} {a : String} (m : Message)
    (h : hasId C a = true) : hasId (upsert C m) a = true := by
  unfold upsert
  split
  · rw [hasId_map_rep]; exact h
  · unfold hasId at h ⊢; rw [List.any_append, h]; rfl

lemma hasId_upsert_self (C : List Message) (m : Message) :
    hasId (upsert C m) m.id = true := by
  unfold upsert
  split
  · next hc => rw [hasId_map_rep]; exact hc
  · unfold hasId; rw [List.any_append]; simp

lemma hasId_add_messages_mono {C : List Message} {a : String} {M : List Message}
    (h : hasId C a = true) : hasId (add_messages C M) a = true := by
  induction M generalizing C with
  | nil => exact h
  | cons m M ih => exact ih (hasId_upsert m h)

lemma hasId_add_messages_self {C M : List Message} :
    ∀ m ∈ M, hasId (add_messages C M) m.id = true := by
  induction M generalizing C with
  | nil => intro m hm; cases hm
  | cons m0 M ih =>
      intro m hm
      rcases List.mem_cons.mp hm with rfl | hm'
      · show hasId (add_messages (upsert C m) M) m.id = true
        exact hasId_add_messages_mono (hasId_upsert_self C m)
      · show hasId (add_messages (upsert C m0) M) m.id = true
        exact ih m hm'

lemma foldl_lastWith (a : String) (M : List Message) (init : Option Message) :
    M.foldl (fun acc m => if m.id == a then some m else acc) init =
      match lastWith M a with
      | some y => some y
      | none => init := by
  induction M generalizing init with
  | nil => simp [lastWith]
  | cons m M ih =>
      show M.foldl _ (if m.id == a then some m else init) = _
      rw [ih]
      conv_rhs => rw [show lastWith (m :: M) a =
        M.foldl (fun acc m => if m.id == a then some m else acc)
          (if m.id == a then some m else none) from rfl, ih]
      cases hL : lastWith M a with
      | some y => rfl
      | none => cases hc : m.id == a <;> simp

lemma lastWith_cons (m : Message) (M : List Message) (a : String) :
    lastWith (m :: M) a =
      match lastWith M a with
      | some y => some y
      | none => if m.id == a then some m else none :=
  foldl_lastWith a M _

lemma lastWith_none {M : List Message} {a : String} (h : lastWith M a = none) :
    ∀ m ∈ M, ¬(m.id = a) := by
  induction M with
  | nil => intro m hm; cases hm
  | cons m0 M ih =>
      rw [lastWith_cons] at h
      cases hL : lastWith M a with
      | some y => rw [hL] at h; cases h
      | none =>
          rw [hL] at h
          intro m hm
          rcases List.mem_cons.mp hm with rfl | hm'
          · intro he
            rw [show (m.id == a) = true from beq_iff_eq.mpr he] at h
            cases h
          · exact ih hL m hm'

lemma mem_upsert_eq {C : List Message} {m x : Message}
    (hx : x ∈ upsert C m) (he : x.id = m.id) : x = m := by
  unfold upsert at hx
  split at hx
  · next hc =>
      obtain ⟨y, hy, hxy⟩ := List.mem_map.mp hx
      cases h2 : y.id == m.id with
      | true => rw [if_pos h2] at hxy; exact hxy.symm
      | false =>
          rw [if_neg (by simp [h2])] at hxy
          subst hxy
          exact absurd (beq_iff_eq.mpr he) (by simp [h2])
  · next hc =>
      rcases List.mem_append.mp hx with hxC | hxm
      · exact absurd (he ▸ hasId_of_mem hxC) hc
      · simpa using hxm

lemma mem_upsert_ne {C : List Message} {m x : Message}
    (hx : x ∈ upsert C m) (hne : ¬(x.id = m.id)) : x ∈ C := by
  unfold upsert at hx
  split at hx
  · obtain ⟨y, hy, hxy⟩ := List.mem_map.mp hx
    cases h2 : y.id == m.id with
    | true =>
        rw [if_pos h2] at hxy
        subst hxy
        exact absurd rfl hne
    | false => rw [if_neg (by simp [h2])] at hxy; subst hxy; exact hy
  · rcases List.mem_append.mp hx with hxC | hxm
    · exact hxC
    · exact absurd (by simpa using hxm) (fun h => hne (by rw [h]))

lemma mem_add_messages_of_notin {C M : List Message} {x : Message}
    (hx : x ∈ add_messages C M) (h : ∀ m' ∈ M, ¬(m'.id = x.id)) : x ∈ C := by
  induction M generalizing C with
  | nil => exact hx
  | cons m M ih =>
      have hxU : x ∈ upsert C m := by
        refine ih (C := upsert C m) hx ?_
        intro m' hm'
        exact h m' (List.mem_cons.mpr (Or.inr hm'))
      refine mem_upsert_ne hxU ?_
      intro he
      exact h m (List.mem_cons_self m M) (by rw [he])

lemma add_messages_last_agrees {M : List Message} {x : Message} :
    ∀ {C : List Message} {y : Message},
      x ∈ add_messages C M → lastWith M x.id = some y → x = y := by
  induction M with
  | nil => intro C y _ hl; simp [lastWith] at hl
  | cons m M ih =>
      intro C y hx hl
      rw [lastWith_cons] at hl
      cases hL : lastWith M x.id with
      | some y' =>
          rw [hL] at hl
          cases hl
          exact ih (C := upsert C m) hx hL
      | none =>
          rw [hL] at hl
          by_cases hc : (m.id == x.id) = true
          · rw [if_pos hc] at hl
            cases hl
            have hnotin : ∀ m' ∈ M, ¬(m'.id = x.id) := lastWith_none hL
            have hxU : x ∈ upsert C m :=
              mem_add_messages_of_notin (C := upsert C m) (M := M) hx hnotin
            exact mem_upsert_eq hxU (beq_iff_eq.mp hc).symm
          · rw [if_neg hc] at hl; cases hl

lemma add_messages_of_allPresent {M : List Message} :
    ∀ {C : List Message}, (∀ m ∈ M, hasId C m.id = true) →
      add_messages C M = C.map fun x => (lastWith M x.id).getD x := by
  induction M with
  | nil => intro C _; simp [add_messages, lastWith]
  | cons m M ih =>
      intro C h
      have hm : hasId C m.id = true := h m (List.mem_cons_self m M)
      show add_messages (upsert C m) M = _
      have hUp : upsert C m = C.map (fun x => if x.id == m.id then m else x) := by
        unfold upsert; rw [if_pos hm]
      rw [hUp]
      have hp : ∀ m' ∈ M,
          hasId (C.map fun x => if x.id == m.id then m else x) m'.id = true := by
        intro m' hm'
        rw [hasId_map_rep]
        exact h m' (List.mem_cons.mpr (Or.inr hm'))
      rw [ih hp, List.map_map]
      refine List.map_congr_left ?_
      intro x _
      simp only [Function.comp]
      by_cases hc : (x.id == m.id) = true
      · rw [if_pos hc]
        have hxe : x.id = m.id := beq_iff_eq.mp hc
        rw [lastWith_cons, hxe]
        cases hL : lastWith M m.id with
        | some y => simp
        | none => simp
      · rw [if_neg hc, lastWith_cons]
        cases hL : lastWith M x.id with
        | some y => simp
        | none =>
            have hmc : ¬((m.id == x.id) = true) := by
              intro hmx
              exact hc (beq_iff_eq.mpr (beq_iff_eq.mp hmx).symm)
            simp only [if_neg hmc]

/-- C7: message merging is an idempotent upsert by id — for every
conversation `C` and incoming batch `M`, appending `M` twice via the
merge rule yields the same conversation as appending it once: a message
whose id matches an existing one replaces it in place, and no duplicate
entry is appended. -/
theorem C7_merge_idempotent (C M : List Message) :
    add_messages (add_messages C M) M = add_messages C M := by
  have h1 : ∀ m ∈ M, hasId (add_messages C M) m.id = true :=
    hasId_add_messages_self
  rw [add_messages_of_allPresent h1]
  have h2 : ∀ x ∈ add_messages C M, (lastWith M x.id).getD x = x := by
    intro x hx
    cases hL : lastWith M x.id with
    | none => rfl
    | some y =>
        have := add_messages_last_agrees hx hL
        simp [this]
  calc (add_messages C M).map (fun x => (lastWith M x.id).getD x)
      = (add_messages C M).map id := List.map_congr_left h2
    _ = add_messages C M := List.map_id _

/-! ### Orchestration-graph lemmas -/

lemma step_always_chatbot (exec : CapCall → String) (s : AgentState)
    (h : s.node = .chatbot) :
    (step alwaysCallBackend exec s).node = .tools ∧
      (step alwaysCallBackend exec s).invocations = s.invocations + 1 := by
  obtain ⟨ms, nd, inv⟩ := s
  cases h
  simp [step, alwaysCallBackend]

lemma step_tools_node (backend : Backend) (exec : CapCall → String) (s : AgentState)
    (h : s.node = .tools) :
    (step backend exec s).node = .chatbot ∧
      (step backend exec s).invocations = s.invocations := by
  obtain ⟨ms, nd, inv⟩ := s
  cases h
  simp [step]

/-- C1: the claim requires the chatbot/tools cycle to be bounded by a
configurable `maxIterations`, with a `FAILED` terminal state reached
after exactly that many model invocations for a backend that never
stops requesting calls. The compiled graph has no such bound: its node
set is `chatbot`, `tools` and `END` only, the `tools → chatbot` edge is
unconditional, and no iteration counter exists. This theorem evaluates
the code at the claim's scenario: under a backend that always requests
one more call, (a) the run never reaches a terminal node, and (b) after
`2·n` steps the loop is back at `chatbot` having made exactly `n` model
invocations — so the invocation count exceeds every bound (in
particular `maxIterations = 3`) and no cap-explanation message is ever
produced. -/
theorem C1_loop_unbounded :
    (∀ (exec : CapCall → String) (n : ℕ),
      ((step alwaysCallBackend exec)^[n] initState).node ≠ GNode.stop) ∧
    (∀ (exec : CapCall → String) (n : ℕ),
      ((step alwaysCallBackend exec)^[2 * n] initState).node = GNode.chatbot ∧
      ((step alwaysCallBackend exec)^[2 * n] initState).invocations = n) := by
  constructor
  · intro exec n
    induction n with
    | zero => simp [initState]
    | succ n ih =>
        rw [Function.iterate_succ_apply']
        set s := (step alwaysCallBackend exec)^[n] initState with hs
        cases hn : s.node with
        | chatbot =>
            intro h
            rw [(step_always_chatbot exec s hn).1] at h
            cases h
        | tools =>
            intro h
            rw [(step_tools_node alwaysCallBackend exec s hn).1] at h
            cases h
        | stop => exact absurd hn ih
  · intro exec n
    induction n with
    | zero => constructor <;> simp [initState]
    | succ n ih =>
        have h2 : 2 * (n + 1) = (2 * n + 1) + 1 := by ring
        rw [h2, Function.iterate_succ_apply', Function.iterate_succ_apply']
        set s := (step alwaysCallBackend exec)^[2 * n] initState with hs
        have hstep1 := step_always_chatbot exec s ih.1
        have hstep2 := step_tools_node alwaysCallBackend exec _ hstep1.1
        refine ⟨hstep2.1, ?_⟩
        rw [hstep2.2, hstep1.2, ih.2]

/-- C8: when the backend invocation fails with any exception, the
`chatbot` node does not propagate the failure (the step function is
total): it synthesizes a terminal assistant message with apologetic
content carrying the error text and no tool calls, merges it into the
conversation, and — the fallback having no calls — the graph routes to
`END` (the spec's `DONE`), which is a fixpoint: the run ends as a
degraded success. -/
theorem C8_backend_failure_degraded
    (backend : Backend) (exec : CapCall → String) (s : AgentState) (e : String)
    (h : s.node = GNode.chatbot) (hb : backend s.messages = .error e) :
    step backend exec s =
      { messages := add_messages s.messages [fallbackMessage e]
        node := GNode.stop
        invocations := s.invocations + 1 } ∧
    (fallbackMessage e).role = Role.assistant ∧
    (fallbackMessage e).calls = [] ∧
    (fallbackMessage e).content =
      "I apologize, but I'm experiencing technical difficulties. Error: " ++ e ∧
    step backend exec (step backend exec s) = step backend exec s := by
  obtain ⟨ms, nd, inv⟩ := s
  cases h
  refine ⟨by simp [step, hb], rfl, rfl, rfl, by simp [step, hb]⟩

/-- Witness for C8 at a concrete failing backend (always raises
`"timeout"`) and the concrete initial state. -/
theorem C8_backend_failure_witness :
    step (fun _ => Except.error "timeout") (fun _ => "") initState =
      { messages := add_messages initState.messages [fallbackMessage "timeout"]
        node := GNode.stop
        invocations := initState.invocations + 1 } ∧
    (fallbackMessage "timeout").role = Role.assistant ∧
    (fallbackMessage "timeout").calls = [] ∧
    (fallbackMessage "timeout").content =
      "I apologize, but I'm experiencing technical difficulties. Error: " ++ "timeout" ∧
    step (fun _ => Except.error "timeout") (fun _ => "")
        (step (fun _ => Except.error "timeout") (fun _ => "") initState) =
      step (fun _ => Except.error "timeout") (fun _ => "") initState :=
  C8_backend_failure_degraded (fun _ => Except.error "timeout") (fun _ => "")
    initState "timeout" rfl rfl

/-- C9: for every query whose length after stripping whitespace exceeds
200 characters, `web_search` returns the too-long error string — for
every choice of the three network-backed search methods, which shows
none of them is consulted. -/
theorem C9_query_too_long
    (m1 m2 m3 : String → Option String) (q : String)
    (h : 200 < (pyStrip q).length) :
    web_search m1 m2 m3 q = "Error: Search query too long (maximum 200 characters)" := by
  have hne : ¬(pyStrip q = "") := by
    intro he
    rw [he] at h
    exact absurd h (by decide)
  unfold web_search
  rw [if_neg hne, if_pos h]

set_option maxRecDepth 8000 in
/-- Witness for C9: a 201-character query (and search methods that all
fail) hits the too-long rejection. -/
theorem C9_query_too_long_witness :
    web_search (fun _ => none) (fun _ => none) (fun _ => none)
        (String.mk (List.replicate 201 'a')) =
      "Error: Search query too long (maximum 200 characters)" :=
  C9_query_too_long (fun _ => none) (fun _ => none) (fun _ => none)
    (String.mk (List.replicate 201 'a')) (by decide)

/-! ### Evaluator infrastructure -/

lemma eval_binOp (op : BOp) (l r : PyExpr) :
    safe_eval_math_ast (.binOp op l r) =
      match safe_eval_math_ast l with
      | .error e => .error e
      | .ok lv =>
          match safe_eval_math_ast r with
          | .error e => .error e
          | .ok rv =>
              match lv, rv with
              | some a, some b => applyBin op a b
              | _, _ => .ok none := by
  show (safe_eval_math_ast l).bind _ = _
  cases safe_eval_math_ast l with
  | error e => rfl
  | ok lv =>
      show (safe_eval_math_ast r).bind _ = _
      cases safe_eval_math_ast r with
      | error e => rfl
      | ok rv => rfl

lemma eval_unaryOp (op : UOp) (e : PyExpr) :
    safe_eval_math_ast (.unaryOp op e) =
      match safe_eval_math_ast e with
      | .error ex => .error ex
      | .ok none => .ok none
      | .ok (some a) =>
          match op with
          | .uadd => .ok (some a)
          | .usub => .ok (some (numNeg a))
          | .invert => .ok none := by
  show (safe_eval_math_ast e).bind _ = _
  cases safe_eval_math_ast e with
  | error ex => rfl
  | ok v => cases v with
      | none => rfl
      | some a => cases op <;> rfl

lemma applyBin_not_none (op : BOp) (a b : PyVal) (hop : op ≠ .bitXor) :
    applyBin op a b ≠ .ok none := by
  cases op with
  | add => simp [applyBin]
  | sub => simp [applyBin]
  | mult => simp [applyBin]
  | div =>
      simp only [applyBin]
      split
      · simp
      · simp
  | pow =>
      simp only [applyBin]
      split
      · simp
      · cases powV a b <;> simp [Except.map]
  | mod =>
      simp only [applyBin]
      split
      · simp
      · cases numMod a b <;> simp [Except.map]
  | bitXor => exact absurd rfl hop

lemma pureArith_not_none (t : PyExpr) (hp : PureArith t = true) :
    safe_eval_math_ast t ≠ .ok none := by
  induction t with
  | const c =>
      cases c with
      | num v => simp [safe_eval_math_ast]
      | str s => simp [PureArith] at hp
  | binOp op l r ihl ihr =>
      have hps : (op != BOp.bitXor) = true ∧ PureArith l = true ∧ PureArith r = true := by
        simp only [PureArith, Bool.and_eq_true] at hp
        exact ⟨hp.1.1, hp.1.2, hp.2⟩
      rw [eval_binOp]
      cases hL : safe_eval_math_ast l with
      | error e => simp
      | ok lv =>
          cases hR : safe_eval_math_ast r with
          | error e => cases lv <;> simp
          | ok rv =>
              cases lv with
              | none => exact absurd hL (ihl hps.2.1)
              | some a =>
                  cases rv with
                  | none => exact absurd hR (ihr hps.2.2)
                  | some b =>
                      exact applyBin_not_none op a b (by simpa using hps.1)
  | unaryOp op e ihe =>
      have hps : (op == UOp.uadd || op == UOp.usub) = true ∧ PureArith e = true := by
        simpa only [PureArith, Bool.and_eq_true] using hp
      rw [eval_unaryOp]
      cases hE : safe_eval_math_ast e with
      | error ex => simp
      | ok v =>
          cases v with
          | none => exact absurd hE (ihe hps.2)
          | some a =>
              cases op with
              | uadd => simp
              | usub => simp
              | invert => simp at hps
  | name s => simp [PureArith] at hp

/-! ### Block-list infrastructure -/

lemma mem_of_pyContains {hay pat : String} {c : Char}
    (h : pyContains hay pat = true) (hc : c ∈ pat.data) : c ∈ hay.data := by
  unfold pyContains at h
  obtain ⟨i, _, hp⟩ := List.any_eq_true.mp h
  have hpre : pat.data <+: hay.data.drop i := List.isPrefixOf_iff_prefix.mp hp
  exact List.Sublist.mem (List.Sublist.mem hc hpre.sublist) (List.drop_sublist i hay.data)

lemma arithChar_toLower {c : Char} (h : arithChar c = true) : Char.toLower c = c := by
  have hm : c ∈ arithChars := List.elem_iff.mp h
  fin_cases hm <;> rfl

lemma arith_pyLower {s : String} (h : arithStr s = true) : pyLower s = s := by
  obtain ⟨d⟩ := s
  show String.mk (d.map Char.toLower) = String.mk d
  congr 1
  calc d.map Char.toLower
      = d.map id := List.map_congr_left fun c hc =>
          arithChar_toLower (List.all_eq_true.mp h c hc)
    _ = d := List.map_id d

lemma pyContains_arith_false {s : String} (h : arithStr s = true)
    (pat : String) (c : Char) (hc : c ∈ pat.data) (hbad : arithChar c = false) :
    pyContains s pat = false := by
  cases hq : pyContains s pat with
  | false => rfl
  | true =>
      have h1 := mem_of_pyContains hq hc
      have h2 := List.all_eq_true.mp h _ h1
      rw [hbad] at h2
      cases h2

lemma blockAny_arith {s : String} (h : arithStr s = true) : blockAny s = false := by
  have hl : pyLower s = s := arith_pyLower h
  simp only [blockAny, dangerous_patterns, hl, List.any_cons, List.any_nil]
  rw [pyContains_arith_false h "import" 'i' (by decide) (by decide),
    pyContains_arith_false h "exec" 'x' (by decide) (by decide),
    pyContains_arith_false h "eval" 'v' (by decide) (by decide),
    pyContains_arith_false h "__" '_' (by decide) (by decide),
    pyContains_arith_false h "open" 'o' (by decide) (by decide),
    pyContains_arith_false h "file" 'f' (by decide) (by decide),
    pyContains_arith_false h "input" 'i' (by decide) (by decide),
    pyContains_arith_false h "raw_input" 'r' (by decide) (by decide)]
  rfl

lemma calcOutcome_eval {s : String} {t : PyExpr}
    (hne : pyStrip s ≠ "") (hb : blockAny (pyStrip s) = false)
    (hp : parse (pyStrip s) = .ok t) :
    calcOutcome s =
      match safe_eval_math_ast t with
      | .error .zeroDiv => .divZero
      | .error .overflow => .overflowExc
      | .error (.typeErr m) => .failed m
      | .ok none => .unsupported
      | .ok (some v) =>
          match v with
          | .float q =>
              if 10 ^ 15 < |q| then .tooLarge q
              else if |q| < 1 / 10 ^ 15 ∧ q ≠ 0 then .tooSmall q
              else .num v
          | _ => .num v := by
  unfold calcOutcome
  rw [if_neg hne, if_neg (by simp [hb]), hp]

/-! ### C2 — evaluator allow-list soundness -/

/-- C2 counterexample: the claim's input alphabet includes the caret,
but Python's `^` is bitwise xor, which the evaluator rejects as
unsupported — `"2 ^ 3"` is built only from the claim's alphabet yet
yields the unsupported-operation rejection the claim excludes. And
`"2j % 2"` (numeric literals and `%` only) yields the generic
calculation-failure report from the `TypeError` that `%` raises on a
complex operand — neither a numeric result nor a DivisionByZero or
Overflow error. -/
theorem C2_counterexample :
    claimStr "2 ^ 3" = true ∧
    calculator "2 ^ 3" = "Error: Unsupported operation or invalid expression: 2 ^ 3" ∧
    claimStr "2j % 2" = true ∧
    calculator "2j % 2" =
      "Error: Failed to calculate '2j % 2': unsupported operand type(s) for %: 'complex' and 'int'" := by
  refine ⟨by decide, by decide, by decide, by decide⟩

/-- C2 (amended): with exponentiation spelled `**` (the caret is xor
and rejected) and modulo on a complex operand yielding a type-error
report rather than a numeric error, the allow-list property holds:
(1) evaluating a tree built only from numeric literals, the six
supported operators and unary sign never returns the unsupported
marker; (2) the dangerous-substring block-list cannot match any input
over the pure-arithmetic alphabet, so on this fragment acceptance is
decided solely by node kinds; (3) for any such input that parses to a
pure-arithmetic tree, the calculator returns neither the
unsupported-operation nor the unsafe-operations rejection. -/
theorem C2_allowlist_amended :
    (∀ t : PyExpr, PureArith t = true → safe_eval_math_ast t ≠ .ok none) ∧
    (∀ s : String, arithStr s = true → blockAny s = false) ∧
    (∀ (s : String) (t : PyExpr), arithStr (pyStrip s) = true → pyStrip s ≠ "" →
      parse (pyStrip s) = .ok t → PureArith t = true →
      calcOutcome s ≠ CalcOut.unsupported ∧ calcOutcome s ≠ CalcOut.blocked) := by
  refine ⟨pureArith_not_none, fun s h => blockAny_arith h, ?_⟩
  intro s t ha hne hp hpa
  have h1 := calcOutcome_eval hne (blockAny_arith ha) hp
  rw [h1]
  cases hev : safe_eval_math_ast t with
  | error e => cases e <;> exact ⟨by simp, by simp⟩
  | ok v =>
      cases v with
      | none => exact absurd hev (pureArith_not_none t hpa)
      | some w =>
          cases w with
          | int n => exact ⟨by simp, by simp⟩
          | float q =>
              refine ⟨?_, ?_⟩ <;>
              · dsimp only
                split
                · simp
                · split <;> simp
          | complex re im => exact ⟨by simp, by simp⟩

/-- Witness for C2 (amended) at the concrete pure-arithmetic input
`"2 + 3"` and its parse tree. -/
theorem C2_allowlist_witness :
    (PureArith (.binOp .add (.const (.num (.int 2))) (.const (.num (.int 3)))) = true ∧
      safe_eval_math_ast (.binOp .add (.const (.num (.int 2))) (.const (.num (.int 3)))) ≠
        .ok none) ∧
    arithStr "2 + 3" = true ∧ blockAny "2 + 3" = false ∧
    (calcOutcome "2 + 3" ≠ CalcOut.unsupported ∧ calcOutcome "2 + 3" ≠ CalcOut.blocked) :=
  ⟨⟨by decide, C2_allowlist_amended.1 _ (by decide)⟩,
    by decide, C2_allowlist_amended.2.1 "2 + 3" (by decide),
    C2_allowlist_amended.2.2 "2 + 3" _ (by decide) (by decide) rfl (by decide)⟩

/-! ### C3 — exponent-magnitude guard -/

unseal Rat.add Rat.sub Rat.mul Rat.inv in
/-- C3 counterexample: as written, with the caret, the claim fails —
`"2 ^ 10000"` parses as bitwise xor and yields the
unsupported-operation rejection, not an Overflow error; and the guard
does not cover every exponent of magnitude above 1000: a complex
exponent bypasses it, so `"1 ** 3000j"` (exponent magnitude 3000)
computes the power `(1+0j)` instead of returning Overflow. -/
theorem C3_counterexample :
    calculator "2 ^ 10000" =
      "Error: Unsupported operation or invalid expression: 2 ^ 10000" ∧
    calculator "1 ** 3000j" = "(1+0j)" ∧
    (1000 : ℚ) < 3000 := by
  refine ⟨by decide, by decide, by norm_num⟩

/-- C3 (amended): exponentiation is spelled `**`; whenever the exponent
operand is an `int` or `float` of magnitude strictly above 1000, the
`**` dispatch raises `OverflowError` without computing the power, and in
particular `"2 ** 10000"` produces the calculator's
number-too-large-to-compute error text. (A complex exponent bypasses the
guard — see C10.) -/
theorem C3_pow_guard_amended :
    (∀ a b : PyVal, b.isIntFloat = true → 1000 < b.vabs →
      applyBin BOp.pow a b = Except.error PyExc.overflow) ∧
    calculator "2 ** 10000" =
      "Error: Number too large to compute in expression: 2 ** 10000" := by
  constructor
  · intro a b hb habs
    simp only [applyBin]
    rw [if_pos ⟨hb, habs⟩]
  · decide

/-- Witness for C3 (amended): the guard fires at base 2, exponent 10000. -/
theorem C3_pow_guard_witness :
    applyBin BOp.pow (PyVal.int 2) (PyVal.int 10000) = Except.error PyExc.overflow :=
  C3_pow_guard_amended.1 (PyVal.int 2) (PyVal.int 10000) rfl
    (by norm_num [PyVal.vabs])

/-! ### C4 — division and modulo by zero -/

/-- C4: a division or modulo whose right operand evaluates to zero (the
left operand having evaluated to a number) raises `ZeroDivisionError`
inside the evaluator; the calculator converts exactly that exception
into its division-by-zero error string for the expression — it is a
returned message, not a propagated exception (the model is a total
function); in particular `"10 / 0"` yields the division-by-zero text. -/
theorem C4_div_mod_zero :
    (∀ (l r : PyExpr) (a b : PyVal),
      safe_eval_math_ast l = .ok (some a) → safe_eval_math_ast r = .ok (some b) →
      b.isZero = true →
      safe_eval_math_ast (.binOp .div l r) = .error .zeroDiv ∧
      safe_eval_math_ast (.binOp .mod l r) = .error .zeroDiv) ∧
    (∀ (s : String) (t : PyExpr),
      pyStrip s ≠ "" → blockAny (pyStrip s) = false → parse (pyStrip s) = .ok t →
      safe_eval_math_ast t = .error .zeroDiv →
      calculator s = "Error: Division by zero in expression: " ++ pyStrip s) ∧
    calculator "10 / 0" = "Error: Division by zero in expression: 10 / 0" := by
  refine ⟨?_, ?_, by decide⟩
  · intro l r a b hl hr hb
    constructor
    · rw [eval_binOp, hl, hr]
      simp only [applyBin]
      rw [if_pos hb]
    · rw [eval_binOp, hl, hr]
      simp only [applyBin]
      rw [if_pos hb]
  · intro s t hne hb hp hz
    have h1 := calcOutcome_eval hne hb hp
    rw [hz] at h1
    show renderCalc (pyStrip s) (calcOutcome s) = _
    rw [h1]
    rfl

/-- Witness for C4 at `"10 / 0"` and its parse tree. -/
theorem C4_div_mod_zero_witness :
    (safe_eval_math_ast
        (.binOp .div (.const (.num (.int 10))) (.const (.num (.int 0)))) =
      .error .zeroDiv ∧
     safe_eval_math_ast
        (.binOp .mod (.const (.num (.int 10))) (.const (.num (.int 0)))) =
      .error .zeroDiv) ∧
    calculator "10 / 0" = "Error: Division by zero in expression: " ++ pyStrip "10 / 0" :=
  ⟨C4_div_mod_zero.1 (.const (.num (.int 10))) (.const (.num (.int 0)))
      (PyVal.int 10) (PyVal.int 0) rfl rfl rfl,
   C4_div_mod_zero.2.1 "10 / 0"
      (.binOp .div (.const (.num (.int 10))) (.const (.num (.int 0))))
      (by decide) (by decide) rfl rfl⟩

/-! ### C5 — result-magnitude range check -/

/-- C5 counterexample: the range check is applied only to `float`
results — `"10 ** 16"` evaluates to the `int` `10^16`, whose magnitude
exceeds the `1e15` bound, yet the calculator returns the number instead
of an Overflow error, refuting "regardless of the result's numeric
type". -/
theorem C5_counterexample :
    calcOutcome "10 ** 16" = CalcOut.num (PyVal.int (10 ^ 16)) ∧
    calculator "10 ** 16" = "10000000000000000" ∧
    (10 ^ 15 : ℤ) < 10 ^ 16 := by
  refine ⟨by decide, by decide, by norm_num⟩

/-- C5 (amended): only a `float` result is range-checked — a float of
absolute value above `1e15` yields the too-large (Overflow) error, a
nonzero float of absolute value below `1e-15` yields the too-small
(Underflow) error, while `int` and `complex` results are rendered and
returned whatever their magnitude. -/
theorem C5_float_range_amended :
    (∀ (s : String) (t : PyExpr) (q : ℚ),
      pyStrip s ≠ "" → blockAny (pyStrip s) = false → parse (pyStrip s) = .ok t →
      safe_eval_math_ast t = .ok (some (.float q)) → 10 ^ 15 < |q| →
      calculator s = "Error: Result too large: " ++ floatRepr q) ∧
    (∀ (s : String) (t : PyExpr) (q : ℚ),
      pyStrip s ≠ "" → blockAny (pyStrip s) = false → parse (pyStrip s) = .ok t →
      safe_eval_math_ast t = .ok (some (.float q)) → |q| < 1 / 10 ^ 15 → q ≠ 0 →
      calculator s = "Error: Result too small: " ++ floatRepr q) ∧
    (∀ (s : String) (t : PyExpr) (n : ℤ),
      pyStrip s ≠ "" → blockAny (pyStrip s) = false → parse (pyStrip s) = .ok t →
      safe_eval_math_ast t = .ok (some (.int n)) →
      calculator s = toString n) ∧
    (∀ (s : String) (t : PyExpr) (re im : ℚ),
      pyStrip s ≠ "" → blockAny (pyStrip s) = false → parse (pyStrip s) = .ok t →
      safe_eval_math_ast t = .ok (some (.complex re im)) →
      calculator s = complexRepr re im) := by
  refine ⟨?_, ?_, ?_, ?_⟩
  · intro s t q hne hb hp hv habs
    have h1 := calcOutcome_eval hne hb hp
    rw [hv] at h1
    show renderCalc (pyStrip s) (calcOutcome s) = _
    rw [h1]
    show renderCalc (pyStrip s)
      (if 10 ^ 15 < |q| then CalcOut.tooLarge q
       else if |q| < 1 / 10 ^ 15 ∧ q ≠ 0 then CalcOut.tooSmall q
       else CalcOut.num (PyVal.float q)) = _
    rw [if_pos habs]
    rfl
  · intro s t q hne hb hp hv hsmall hq
    have h1 := calcOutcome_eval hne hb hp
    rw [hv] at h1
    have hnl : ¬(10 ^ 15 < |q|) := by
      have h2 : |q| < 10 ^ 15 := hsmall.trans (by norm_num)
      exact fun hcon => absurd h2 (not_lt_of_gt hcon)
    show renderCalc (pyStrip s) (calcOutcome s) = _
    rw [h1]
    show renderCalc (pyStrip s)
      (if 10 ^ 15 < |q| then CalcOut.tooLarge q
       else if |q| < 1 / 10 ^ 15 ∧ q ≠ 0 then CalcOut.tooSmall q
       else CalcOut.num (PyVal.float q)) = _
    rw [if_neg hnl, if_pos ⟨hsmall, hq⟩]
    rfl
  · intro s t n hne hb hp hv
    have h1 := calcOutcome_eval hne hb hp
    rw [hv] at h1
    show renderCalc (pyStrip s) (calcOutcome s) = _
    rw [h1]
    rfl
  · intro s t re im hne hb hp hv
    have h1 := calcOutcome_eval hne hb hp
    rw [hv] at h1
    show renderCalc (pyStrip s) (calcOutcome s) = _
    rw [h1]
    rfl

unseal Rat.add Rat.sub Rat.mul Rat.inv in
/-- Witness for C5 (amended): `"1e20"` is a too-large float, `"1e-20"`
a too-small one, `"7 ** 20"` an `int` of magnitude above the bound that
is returned anyway, `"3j"` a complex that is rendered directly. -/
theorem C5_float_range_witness :
    calculator "1e20" =
      "Error: Result too large: " ++ floatRepr (100000000000000000000 : ℚ) ∧
    calculator "1e-20" =
      "Error: Result too small: " ++ floatRepr ((1 : ℚ) / 100000000000000000000) ∧
    calculator "7 ** 20" = toString ((7 : ℤ) ^ (20 : ℕ)) ∧
    calculator "3j" = complexRepr 0 3 :=
  ⟨C5_float_range_amended.1 "1e20"
      (.const (.num (.float (100000000000000000000 : ℚ))))
      (100000000000000000000 : ℚ) (by decide) (by decide) rfl rfl (by norm_num),
   C5_float_range_amended.2.1 "1e-20"
      (.const (.num (.float ((1 : ℚ) / 100000000000000000000))))
      ((1 : ℚ) / 100000000000000000000) (by decide) (by decide) rfl rfl
      (by rw [abs_of_pos (by norm_num)]; norm_num) (by norm_num),
   C5_float_range_amended.2.2.1 "7 ** 20"
      (.binOp .pow (.const (.num (.int 7))) (.const (.num (.int 20))))
      ((7 : ℤ) ^ (20 : ℕ)) (by decide) (by decide) rfl rfl,
   C5_float_range_amended.2.2.2 "3j"
      (.const (.num (.complex 0 3))) 0 3 (by decide) (by decide) rfl rfl⟩

/-! ### C6 — block-list precedence over the allow-list -/

/-- C6: the claim says any parsed input with a node kind outside the
allow-list gets `UnsupportedOperation` "regardless of whether it
resembles a dangerous keyword textually". The code contradicts this:
the substring block-list runs before parsing, so `"eval"` — which
parses to a bare `Name` node and whose evaluation yields the
unsupported marker — is answered with the unsafe-operations rejection
instead of the unsupported-operation error. -/
theorem C6_blocklist_precedes :
    parse "eval" = .ok (PyExpr.name "eval") ∧
    safe_eval_math_ast (PyExpr.name "eval") = .ok none ∧
    calculator "eval" = "Error: Expression contains potentially unsafe operations: eval" ∧
    calculator "eval" ≠ "Error: Unsupported operation or invalid expression: eval" := by
  refine ⟨rfl, rfl, by decide, by decide⟩

/-! ### C10 — complex literals and the guard's type restriction -/

lemma powIntExp_ne_overflow (a : PyVal) (n : ℤ) :
    powIntExp a n ≠ Except.error PyExc.overflow := by
  unfold powIntExp
  split
  · simp
  · split
    · simp
    · simp

lemma powComplexExp_ne_overflow (a : PyVal) (re im : ℚ) :
    powComplexExp a re im ≠ Except.error PyExc.overflow := by
  unfold powComplexExp
  split
  · intro hcon
    rcases hmap : powIntExp a re.num with e | v
    · rw [hmap] at hcon
      simp only [Except.map] at hcon
      cases hcon
      exact absurd hmap (powIntExp_ne_overflow a re.num)
    · rw [hmap] at hcon
      simp [Except.map] at hcon
  · split
    · split
      · simp
      · simp
    · split
      · simp
      · simp

unseal Rat.add Rat.sub Rat.mul Rat.inv in
/-- C10: the evaluator accepts complex literals as numeric constants
(`2j` evaluates to the complex value `2i`), and the
exponent-magnitude guard applies only to `int`/`float` exponents: a
`**` whose exponent is complex can never return the guard's
`OverflowError`, and concretely `"1 ** 2000j"` — exponent magnitude
2000 > 1000 — computes the power `(1+0j)` rather than Overflow. -/
theorem C10_complex_exponent :
    safe_eval_math_ast (.const (.num (.complex 0 2))) = .ok (some (.complex 0 2)) ∧
    (∀ (a : PyVal) (re im : ℚ),
      applyBin BOp.pow a (.complex re im) ≠ Except.error PyExc.overflow) ∧
    parse "1 ** 2000j" =
      .ok (.binOp .pow (.const (.num (.int 1))) (.const (.num (.complex 0 2000)))) ∧
    safe_eval_math_ast
        (.binOp .pow (.const (.num (.int 1))) (.const (.num (.complex 0 2000)))) =
      .ok (some (.complex 1 0)) ∧
    calculator "1 ** 2000j" = "(1+0j)" ∧
    (1000 : ℚ) < 2000 := by
  refine ⟨rfl, ?_, rfl, rfl, by decide, by norm_num⟩
  intro a re im
  simp only [applyBin, PyVal.isIntFloat]
  intro hcon
  rcases hmap : powV a (.complex re im) with e | v
  · rw [show powV a (.complex re im) = powComplexExp a re im from rfl] at hmap
    rw [show powV a (.complex re im) = powComplexExp a re im from rfl, hmap] at hcon
    simp only [Except.map] at hcon
    cases hcon
    exact absurd hmap (powComplexExp_ne_overflow a re im)
  · rw [hmap] at hcon
    simp [Except.map] at hcon

/-- Witness for C1 at a concrete tool executor and step count: after
six steps (`maxIterations = 3` rounds) the run is still not terminal
and has made exactly three model invocations. -/
theorem C1_loop_unbounded_witness :
    ((step alwaysCallBackend (fun _ => ""))^[6] initState).node ≠ GNode.stop ∧
    ((step alwaysCallBackend (fun _ => ""))^[2 * 3] initState).invocations = 3 :=
  ⟨C1_loop_unbounded.1 (fun _ => "") 6, (C1_loop_unbounded.2 (fun _ => "") 3).2⟩

/-- Witness for C10's guard-bypass clause at a concrete complex
exponent of magnitude 1500. -/
theorem C10_complex_exponent_witness :
    applyBin BOp.pow (PyVal.int 2) (PyVal.complex 0 1500) ≠ Except.error PyExc.overflow :=
  C10_complex_exponent.2.1 (PyVal.int 2) 0 1500
